import Mathlib

/-!
Shallow embedding of the terminal-emulator core (src/core/src/grid.rs,
src/core/src/terminal.rs, src/core/src/ffi.rs) for checking the
natural-language specification against the code.

Conventions of the embedding:
* Rust `usize`/`u8`/`u16` values are represented as `Nat`; wherever the Rust
  code performs an `as u8` cast the embedding takes `% 256` explicitly.
* Rust `Vec<T>` becomes `List T`; `Vec::remove(0)` on a possibly-empty vector
  is modelled by `List.tail` (the Rust code would panic on an empty vector;
  all claims in scope keep at least one grid row, where the two agree).
* Mutation becomes explicit state passing: each `&mut self` method becomes a
  function `T → ... → T`.
* The `pty` field of `Terminal` (an OS resource) is omitted: none of the
  operations modelled here read it, and `resize`'s PTY ioctl has no effect on
  the emulator state.
-/

namespace TermEmu

/-- Helper: apply `f i a` to every element, where `i` counts up from `k`.
Used to model in-place loops that mutate a `Vec` at selected indices. -/
def mapIdxFrom (f : Nat → α → α) : Nat → List α → List α
  | _, [] => []
  | k, a :: as => f k a :: mapIdxFrom f (k + 1) as

/-- RGB color, from grid.rs `Rgb` (three `u8` channels). -/
structure Rgb where
  r : Nat
  g : Nat
  b : Nat
deriving DecidableEq

/-- Named ANSI colors, from grid.rs `NamedColor` (discriminants 0..17). -/
inductive NamedColor where
  | Black | Red | Green | Yellow | Blue | Magenta | Cyan | White
  | BrightBlack | BrightRed | BrightGreen | BrightYellow | BrightBlue
  | BrightMagenta | BrightCyan | BrightWhite
  | Foreground | Background
deriving DecidableEq

/-- The `as usize` discriminant of `NamedColor` (declaration order, 0..17). -/
def NamedColor.toNat : NamedColor → Nat
  | .Black => 0 | .Red => 1 | .Green => 2 | .Yellow => 3
  | .Blue => 4 | .Magenta => 5 | .Cyan => 6 | .White => 7
  | .BrightBlack => 8 | .BrightRed => 9 | .BrightGreen => 10
  | .BrightYellow => 11 | .BrightBlue => 12 | .BrightMagenta => 13
  | .BrightCyan => 14 | .BrightWhite => 15
  | .Foreground => 16 | .Background => 17

/-- Terminal color specification, from grid.rs `Color`. -/
inductive Color where
  | Named (n : NamedColor)
  | Spec256 (idx : Nat)
  | Spec (rgb : Rgb)
deriving DecidableEq

/-- grid.rs: `impl Default for Color` returns `Named(Foreground)`. -/
def Color.default : Color := .Named .Foreground

/-- Cell attribute bitset, from grid.rs `CellFlags(pub u8)`. -/
structure CellFlags where
  bits : Nat
deriving DecidableEq

def CellFlags.BOLD : Nat := 1
def CellFlags.ITALIC : Nat := 2
def CellFlags.UNDERLINE : Nat := 4
def CellFlags.BLINK : Nat := 8
def CellFlags.INVERSE : Nat := 16
def CellFlags.STRIKETHROUGH : Nat := 32

/-- grid.rs `CellFlags::new`. -/
def CellFlags.new : CellFlags := ⟨0⟩

/-- grid.rs `CellFlags::set`: `|=` the flag when enabled, `&= !flag` when not
(the complement is taken within the `u8` width, so `x & !f = x &&& (255 ^^^ f)`
for the in-range values this code produces). -/
def CellFlags.set (f : CellFlags) (flag : Nat) (enabled : Bool) : CellFlags :=
  if enabled then ⟨f.bits ||| flag⟩ else ⟨f.bits &&& (255 ^^^ flag)⟩

/-- A single grid cell, from grid.rs `Cell`. -/
structure Cell where
  c : Char
  fg : Color
  bg : Color
  flags : CellFlags
deriving DecidableEq

/-- grid.rs `Cell::new`. -/
def Cell.new (c : Char) : Cell :=
  ⟨c, Color.default, .Named .Background, CellFlags.new⟩

/-- grid.rs `impl Default for Cell`: `Cell::new(' ')`. -/
def Cell.default : Cell := Cell.new ' '

/-- grid.rs `Cell::reset`. -/
def Cell.reset (_cell : Cell) : Cell :=
  ⟨' ', Color.default, .Named .Background, CellFlags.new⟩

/-- A row of cells plus its dirty flag, from grid.rs `Row`. -/
structure Row where
  cells : List Cell
  dirty : Bool
deriving DecidableEq

/-- grid.rs `Row::new`: `cols` default cells, dirty. -/
def Row.new (cols : Nat) : Row :=
  ⟨List.replicate cols Cell.default, true⟩

/-- grid.rs `Row::clear`: reset every cell, mark dirty. -/
def Row.clear (r : Row) : Row :=
  ⟨r.cells.map Cell.reset, true⟩

/-- grid.rs `Row::resize`: `Vec::resize(cols, default)` (truncate or pad with
default cells), mark dirty. -/
def Row.resize (r : Row) (cols : Nat) : Row :=
  ⟨r.cells.take cols ++ List.replicate (cols - r.cells.length) Cell.default, true⟩

/-- Reset the cells whose index lies in `[lo, hi)`, modelling the Rust loops
`for col in lo..hi { if let Some(cell) = cells.get_mut(col) { cell.reset(); } }`
(indices beyond the vector length are skipped by the `get_mut` guard). -/
def resetRange (cells : List Cell) (lo hi : Nat) : List Cell :=
  mapIdxFrom (fun i cell => if lo ≤ i ∧ i < hi then cell.reset else cell) 0 cells

/-- The terminal grid, from grid.rs `Grid`. -/
structure Grid where
  rows : List Row
  cols : Nat
  scrollback : List Row
  max_scrollback : Nat
deriving DecidableEq

/-- grid.rs `Grid::new`. -/
def Grid.new (rows cols max_scrollback : Nat) : Grid :=
  ⟨List.replicate rows (Row.new cols), cols, [], max_scrollback⟩

/-- grid.rs `Grid::get_cell`. -/
def Grid.get_cell (g : Grid) (row col : Nat) : Option Cell :=
  (g.rows[row]?).bind fun r => r.cells[col]?

/-- Model of the grid.rs `Grid::get_cell_mut` + field-assignment pattern:
when row `row` exists it is marked dirty, and when cell `col` of that row also
exists, `f` is applied to it. This is exactly what
`if let Some(cell) = grid.get_cell_mut(r, c) { ... }` does in the source
(`get_cell_mut` sets `r.dirty = true` before the column bounds check). -/
def Grid.modifyCellAt (g : Grid) (row col : Nat) (f : Cell → Cell) : Grid :=
  { g with rows := mapIdxFrom (fun i r =>
      if i = row then
        { r with dirty := true,
                 cells := mapIdxFrom (fun j cell => if j = col then f cell else cell) 0 r.cells }
      else r) 0 g.rows }

/-- grid.rs `Grid::scroll_up`: push row 0 onto the scrollback (dropping its
head if the cap is exceeded), remove row 0, append a fresh row. -/
def Grid.scroll_up (g : Grid) : Grid :=
  let sb := match g.rows.head? with
    | some row =>
      let sb2 := g.scrollback ++ [row]
      if g.max_scrollback < sb2.length then sb2.tail else sb2
    | none => g.scrollback
  { g with scrollback := sb, rows := g.rows.tail ++ [Row.new g.cols] }

/-- grid.rs `Grid::scroll_down`: pop the scrollback tail, prepend it as row 0
and drop the old bottom row; no-op when the scrollback is empty. -/
def Grid.scroll_down (g : Grid) : Grid :=
  match g.scrollback.getLast? with
  | some row => { g with scrollback := g.scrollback.dropLast,
                         rows := (row :: g.rows).dropLast }
  | none => g

/-- grid.rs `Grid::clear`. -/
def Grid.clear (g : Grid) : Grid :=
  { g with rows := g.rows.map Row.clear }

/-- grid.rs `Grid::clear_to_end`: reset cells `(start_row, start_col..cols)`
(marking that row dirty when it exists) and clear every row below. -/
def Grid.clear_to_end (g : Grid) (start_row start_col : Nat) : Grid :=
  { g with rows := mapIdxFrom (fun i r =>
      if i = start_row then
        { r with cells := resetRange r.cells start_col g.cols, dirty := true }
      else if start_row < i then r.clear
      else r) 0 g.rows }

/-- grid.rs `Grid::clear_from_start`: clear every row above `end_row` and
reset cells `(end_row, 0..=min(end_col, cols-1))`, marking that row dirty. -/
def Grid.clear_from_start (g : Grid) (end_row end_col : Nat) : Grid :=
  { g with rows := mapIdxFrom (fun i r =>
      if i < end_row then r.clear
      else if i = end_row then
        { r with cells := resetRange r.cells 0 (min end_col (g.cols - 1) + 1), dirty := true }
      else r) 0 g.rows }

/-- grid.rs `Grid::resize`: first resize every row's cell vector when the
column count changes, then either append fresh rows or move rows off the top
into the scrollback one at a time (the source's `while` loop pushes
`rows[0]` and then removes it, so the removed rows land at the scrollback tail
in top-to-bottom order; note the loop does NOT enforce `max_scrollback`). -/
def Grid.resize (g : Grid) (new_rows new_cols : Nat) : Grid :=
  let g1 := if new_cols ≠ g.cols then
      { g with rows := g.rows.map (fun r => r.resize new_cols), cols := new_cols }
    else g
  if g1.rows.length < new_rows then
    { g1 with rows := g1.rows ++ List.replicate (new_rows - g1.rows.length) (Row.new g1.cols) }
  else if new_rows < g1.rows.length then
    { g1 with scrollback := g1.scrollback ++ g1.rows.take (g1.rows.length - new_rows),
              rows := g1.rows.drop (g1.rows.length - new_rows) }
  else g1

/-- grid.rs `Grid::mark_clean`. -/
def Grid.mark_clean (g : Grid) : Grid :=
  { g with rows := g.rows.map fun r => { r with dirty := false } }

/-- Accumulator for `Grid::dirty_rows`: indices (counting from `k`) of the
rows whose dirty flag is set. -/
def dirtyIdx : List Row → Nat → List Nat
  | [], _ => []
  | r :: rs, k => if r.dirty then k :: dirtyIdx rs (k + 1) else dirtyIdx rs (k + 1)

/-- grid.rs `Grid::dirty_rows`. -/
def Grid.dirty_rows (g : Grid) : List Nat :=
  dirtyIdx g.rows 0

/-- Well-formed grid: every row has exactly `cols` cells (spec §3 invariant). -/
def Grid.WF (g : Grid) : Prop :=
  ∀ r ∈ g.rows, r.cells.length = g.cols

instance (g : Grid) : Decidable (Grid.WF g) :=
  List.decidableBAll _ g.rows

/-- Cursor position and style, from terminal.rs `Cursor`. -/
structure Cursor where
  row : Nat
  col : Nat
  fg : Color
  bg : Color
  flags : CellFlags
deriving DecidableEq

/-- terminal.rs `Cursor::new`. -/
def Cursor.new : Cursor :=
  ⟨0, 0, .Named .Foreground, .Named .Background, CellFlags.new⟩

/-- terminal.rs `Cursor::reset_style`. -/
def Cursor.reset_style (c : Cursor) : Cursor :=
  { c with fg := .Named .Foreground, bg := .Named .Background, flags := CellFlags.new }

/-- State of the ANSI byte-state machine.

Modelled from the spec: the byte state machine itself lives in the external
`vte` crate (parser.rs only wraps `vte::Parser`); its code is not under src/,
so the states are taken from spec §4.2 ("ground, escape, CSI entry/param,
OSC string, utf-8 continuation"). The DCS and SOS/PM/APC string states are
omitted because all of their dispatches (`hook`/`put`/`unhook`,
`osc_dispatch`, `esc_dispatch`) are no-ops in terminal.rs. -/
inductive PState where
  | ground
  | escape
  | csi (params : List Nat) (cur : Nat)
  | osc
  | oscEsc
  | utf8 (need : Nat) (acc : Nat)
deriving DecidableEq

/-- One dispatch of the parser to its handler (the `Perform` impl of
`Terminal` in terminal.rs). `params` is the flattened parameter list that
`params_to_vec` produces. -/
inductive Action where
  | print (c : Char)
  | execByte (b : Nat)
  | csiDisp (params : List Nat) (final : Char)
  | escDisp (b : Nat)
  | oscDisp
deriving DecidableEq

/-- Decode a completed UTF-8 scalar value; invalid values print U+FFFD. -/
def scalarChar (n : Nat) : Char :=
  if n < 0xD800 ∨ (0xDFFF < n ∧ n < 0x110000) then Char.ofNat n else '�'

/-- Modelled from the spec: one byte step of the VT500 state machine
(spec §4.2). Per byte it either transitions quietly or performs exactly one
dispatch. Parameter accumulation saturates at 65535 (`vte` stores `u16`
parameters, which `params_to_vec` widens); a parameter group is pushed at
each `;`/`:` separator and once more at the final byte. C0 controls inside
escape/CSI sequences are executed immediately, as in the ground state. -/
def advanceByte (p : PState) (b : Nat) : PState × List Action :=
  match p with
  | .ground =>
    if b = 0x1B then (.escape, [])
    else if b < 0x20 ∨ b = 0x7F then (.ground, [.execByte b])
    else if b < 0x80 then (.ground, [.print (Char.ofNat b)])
    else if 0xC2 ≤ b ∧ b ≤ 0xDF then (.utf8 1 (b - 0xC0), [])
    else if 0xE0 ≤ b ∧ b ≤ 0xEF then (.utf8 2 (b - 0xE0), [])
    else if 0xF0 ≤ b ∧ b ≤ 0xF4 then (.utf8 3 (b - 0xF0), [])
    else (.ground, [.print '�'])
  | .utf8 need acc =>
    if 0x80 ≤ b ∧ b ≤ 0xBF then
      let acc2 := acc * 64 + (b - 0x80)
      match need with
      | 0 => (.ground, [])
      | 1 => (.ground, [.print (scalarChar acc2)])
      | n + 2 => (.utf8 (n + 1) acc2, [])
    else (.ground, [.print '�'])
  | .escape =>
    if b = 0x5B then (.csi [] 0, [])
    else if b = 0x5D then (.osc, [])
    else if b = 0x1B then (.escape, [])
    else if b < 0x20 then (.escape, [.execByte b])
    else if 0x30 ≤ b ∧ b ≤ 0x7E then (.ground, [.escDisp b])
    else (.escape, [])
  | .csi ps cur =>
    if b = 0x1B then (.escape, [])
    else if b < 0x20 then (.csi ps cur, [.execByte b])
    else if 0x30 ≤ b ∧ b ≤ 0x39 then (.csi ps (min (cur * 10 + (b - 0x30)) 65535), [])
    else if b = 0x3A ∨ b = 0x3B then (.csi (ps ++ [cur]) 0, [])
    else if 0x40 ≤ b ∧ b ≤ 0x7E then (.ground, [.csiDisp (ps ++ [cur]) (Char.ofNat b)])
    else (.csi ps cur, [])
  | .osc =>
    if b = 0x07 then (.ground, [.oscDisp])
    else if b = 0x1B then (.oscEsc, [])
    else (.osc, [])
  | .oscEsc =>
    if b = 0x5C then (.ground, [.oscDisp])
    else (.escape, [])

/-- Terminal emulator state, from terminal.rs `Terminal` (the `pty` field is
omitted, see the file comment). -/
structure Terminal where
  grid : Grid
  cursor : Cursor
  saved_cursor : Option Cursor
  parser : PState
  rows : Nat
  cols : Nat
deriving DecidableEq

/-- terminal.rs `Terminal::new`: fresh grid with a 10000-row scrollback cap. -/
def Terminal.new (rows cols : Nat) : Terminal :=
  ⟨Grid.new rows cols 10000, Cursor.new, none, .ground, rows, cols⟩

/-- terminal.rs `Terminal::newline`: `col = 0`, advance `row`, and scroll
(clamping `row` to `rows - 1`) when the bottom is passed. -/
def Terminal.newline (t : Terminal) : Terminal :=
  let t1 := { t with cursor := { t.cursor with col := 0, row := t.cursor.row + 1 } }
  if t1.rows ≤ t1.cursor.row then
    { t1 with grid := t1.grid.scroll_up, cursor := { t1.cursor with row := t1.rows - 1 } }
  else t1

/-- terminal.rs `Terminal::write_char`: CR, LF, TAB and BS are handled
specially; any other character is written at the cursor with the cursor's
style, then the cursor advances and wraps via `newline` when `col ≥ cols`. -/
def Terminal.write_char (t : Terminal) (c : Char) : Terminal :=
  if c = '\x0d' then { t with cursor := { t.cursor with col := 0 } }
  else if c = '\x0a' then t.newline
  else if c = '\x09' then
    let col := ((t.cursor.col / 8) + 1) * 8
    let col := if t.cols ≤ col then t.cols - 1 else col
    { t with cursor := { t.cursor with col := col } }
  else if c = '\x08' then
    if 0 < t.cursor.col then { t with cursor := { t.cursor with col := t.cursor.col - 1 } }
    else t
  else
    let t1 := { t with grid := (t.grid.modifyCellAt t.cursor.row t.cursor.col
                  (fun _ => ⟨c, t.cursor.fg, t.cursor.bg, t.cursor.flags⟩)) }
    let t2 := { t1 with cursor := { t1.cursor with col := t1.cursor.col + 1 } }
    if t2.cols ≤ t2.cursor.col then t2.newline else t2

/-- terminal.rs `handle_sgr` 30..=37 / 40..=47 color table (`n` is the code
minus the base; the default arm is unreachable for in-range codes but kept). -/
def standardColor (n : Nat) (dflt : NamedColor) : NamedColor :=
  if n = 0 then .Black else if n = 1 then .Red else if n = 2 then .Green
  else if n = 3 then .Yellow else if n = 4 then .Blue else if n = 5 then .Magenta
  else if n = 6 then .Cyan else if n = 7 then .White else dflt

/-- terminal.rs `handle_sgr` 90..=97 / 100..=107 bright color table. -/
def brightColor (n : Nat) (dflt : NamedColor) : NamedColor :=
  if n = 0 then .BrightBlack else if n = 1 then .BrightRed
  else if n = 2 then .BrightGreen else if n = 3 then .BrightYellow
  else if n = 4 then .BrightBlue else if n = 5 then .BrightMagenta
  else if n = 6 then .BrightCyan else if n = 7 then .BrightWhite else dflt

/-- The extended-color tail of a `38`/`48` SGR parameter, mirroring the two
guarded branches in terminal.rs `handle_sgr`: `5;n` consumes two extra
parameters and yields a 256-color index, `2;r;g;b` consumes four and yields
a true color; anything else consumes nothing (only the `38`/`48` itself).
The guards `i + 2 < params.len()` / `i + 4 < params.len()` are exactly the
pattern lengths here. Every `as u8` cast is `% 256` (`i64` → `u8`
truncation). -/
def sgrExt (rest : List Nat) : Option (Color × List Nat) :=
  match rest with
  | 5 :: n :: rest2 => some (Color.Spec256 (n % 256), rest2)
  | 2 :: r :: g :: b :: rest2 => some (Color.Spec ⟨r % 256, g % 256, b % 256⟩, rest2)
  | _ => none

/-- The `while i < params.len()` loop of terminal.rs `handle_sgr`, as fuel
recursion (the fuel only has to bound the number of iterations; every
iteration consumes at least one parameter, so `params.length` is enough). -/
def sgr_loop : Nat → Cursor → List Nat → Cursor
  | 0, cur, _ => cur
  | _ + 1, cur, [] => cur
  | fuel + 1, cur, p :: rest =>
    if p = 0 then sgr_loop fuel cur.reset_style rest
    else if p = 1 then sgr_loop fuel { cur with flags := cur.flags.set CellFlags.BOLD true } rest
    else if p = 3 then sgr_loop fuel { cur with flags := cur.flags.set CellFlags.ITALIC true } rest
    else if p = 4 then sgr_loop fuel { cur with flags := cur.flags.set CellFlags.UNDERLINE true } rest
    else if p = 5 then sgr_loop fuel { cur with flags := cur.flags.set CellFlags.BLINK true } rest
    else if p = 7 then sgr_loop fuel { cur with flags := cur.flags.set CellFlags.INVERSE true } rest
    else if p = 9 then sgr_loop fuel { cur with flags := cur.flags.set CellFlags.STRIKETHROUGH true } rest
    else if p = 22 then sgr_loop fuel { cur with flags := cur.flags.set CellFlags.BOLD false } rest
    else if p = 23 then sgr_loop fuel { cur with flags := cur.flags.set CellFlags.ITALIC false } rest
    else if p = 24 then sgr_loop fuel { cur with flags := cur.flags.set CellFlags.UNDERLINE false } rest
    else if p = 25 then sgr_loop fuel { cur with flags := cur.flags.set CellFlags.BLINK false } rest
    else if p = 27 then sgr_loop fuel { cur with flags := cur.flags.set CellFlags.INVERSE false } rest
    else if p = 29 then sgr_loop fuel { cur with flags := cur.flags.set CellFlags.STRIKETHROUGH false } rest
    else if 30 ≤ p ∧ p ≤ 37 then
      sgr_loop fuel { cur with fg := Color.Named (standardColor (p - 30) .Foreground) } rest
    else if 40 ≤ p ∧ p ≤ 47 then
      sgr_loop fuel { cur with bg := Color.Named (standardColor (p - 40) .Background) } rest
    else if p = 38 then
      match sgrExt rest with
      | some (color, rest2) => sgr_loop fuel { cur with fg := color } rest2
      | none => sgr_loop fuel cur rest
    else if p = 48 then
      match sgrExt rest with
      | some (color, rest2) => sgr_loop fuel { cur with bg := color } rest2
      | none => sgr_loop fuel cur rest
    else if 90 ≤ p ∧ p ≤ 97 then
      sgr_loop fuel { cur with fg := Color.Named (brightColor (p - 90) .Foreground) } rest
    else if 100 ≤ p ∧ p ≤ 107 then
      sgr_loop fuel { cur with bg := Color.Named (brightColor (p - 100) .Background) } rest
    else sgr_loop fuel cur rest

/-- terminal.rs `Terminal::handle_sgr`: empty parameter list resets the
style; otherwise run the parameter loop over the cursor's style. -/
def Terminal.handle_sgr (t : Terminal) (params : List Nat) : Terminal :=
  if params.isEmpty then { t with cursor := t.cursor.reset_style }
  else { t with cursor := sgr_loop params.length t.cursor params }

/-- The `K` (erase in line) arm of terminal.rs `csi_dispatch`, acting on the
row under the cursor: mode 0 resets `col..cols`, mode 1 resets `0..=col`,
mode 2 clears the row, any other mode does nothing; the row is marked dirty
in every case (the `row.dirty = true` after the `match`). -/
def elK (row : Row) (mode col cols : Nat) : Row :=
  let row1 :=
    if mode = 0 then { row with cells := resetRange row.cells col cols }
    else if mode = 1 then { row with cells := resetRange row.cells 0 (col + 1) }
    else if mode = 2 then row.clear
    else row
  { row1 with dirty := true }

/-- terminal.rs `csi_dispatch` (the `Perform` impl), keyed on the final
byte. Parameter defaulting matches `params.get(i).copied().unwrap_or(d)`. -/
def Terminal.csi_dispatch (t : Terminal) (params : List Nat) (c : Char) : Terminal :=
  if c = 'A' then
    let n := max ((params[0]?).getD 1) 1
    { t with cursor := { t.cursor with row := t.cursor.row - n } }
  else if c = 'B' then
    let n := max ((params[0]?).getD 1) 1
    { t with cursor := { t.cursor with row := min (t.cursor.row + n) (t.rows - 1) } }
  else if c = 'C' then
    let n := max ((params[0]?).getD 1) 1
    { t with cursor := { t.cursor with col := min (t.cursor.col + n) (t.cols - 1) } }
  else if c = 'D' then
    let n := max ((params[0]?).getD 1) 1
    { t with cursor := { t.cursor with col := t.cursor.col - n } }
  else if c = 'H' ∨ c = 'f' then
    let row := max ((params[0]?).getD 1) 1 - 1
    let col := max ((params[1]?).getD 1) 1 - 1
    { t with cursor := { t.cursor with row := min row (t.rows - 1), col := min col (t.cols - 1) } }
  else if c = 'J' then
    let mode := (params[0]?).getD 0
    if mode = 0 then { t with grid := t.grid.clear_to_end t.cursor.row t.cursor.col }
    else if mode = 1 then { t with grid := t.grid.clear_from_start t.cursor.row t.cursor.col }
    else if mode = 2 ∨ mode = 3 then { t with grid := t.grid.clear }
    else t
  else if c = 'K' then
    let mode := (params[0]?).getD 0
    { t with grid := { t.grid with rows := mapIdxFrom (fun i row =>
        if i = t.cursor.row then elK row mode t.cursor.col t.cols else row) 0 t.grid.rows } }
  else if c = 'm' then t.handle_sgr params
  else if c = 's' then { t with saved_cursor := some t.cursor }
  else if c = 'u' then
    match t.saved_cursor with
    | some saved => { t with cursor := saved }
    | none => t
  else t

/-- terminal.rs `Perform::execute`: LF performs a newline, CR homes the
column, TAB and BS are routed through `write_char`; every other C0 byte
(including VT 0x0B and FF 0x0C) is ignored. -/
def Terminal.execute (t : Terminal) (b : Nat) : Terminal :=
  if b = 0x0A then t.newline
  else if b = 0x0D then { t with cursor := { t.cursor with col := 0 } }
  else if b = 0x09 then t.write_char '\x09'
  else if b = 0x08 then t.write_char '\x08'
  else t

/-- Apply one parser dispatch to the terminal, exactly as the `Perform`
impl in terminal.rs routes it (`esc_dispatch` and `osc_dispatch` are empty). -/
def applyAction (t : Terminal) (a : Action) : Terminal :=
  match a with
  | .print c => t.write_char c
  | .execByte b => t.execute b
  | .csiDisp ps c => t.csi_dispatch ps c
  | .escDisp _ => t
  | .oscDisp => t

/-- One byte of `process_bytes`' loop: advance the parser state (second
component) and apply the resulting dispatches to the terminal (first
component). The terminal's own `parser` field is the freshly swapped-in one
and is never consulted, mirroring the `std::mem::replace` dance. -/
def pbStep (s : Terminal × PState) (b : Nat) : Terminal × PState :=
  ((advanceByte s.2 b).2.foldl applyAction s.1, (advanceByte s.2 b).1)

/-- terminal.rs `Terminal::process_bytes`: move the parser out (leaving a
fresh one), feed every byte through `advance`, and move the parser back. -/
def Terminal.process_bytes (t : Terminal) (bytes : List Nat) : Terminal :=
  let s := bytes.foldl pbStep ({ t with parser := .ground }, t.parser)
  { s.1 with parser := s.2 }

/-- terminal.rs `Terminal::resize`: record the new size, resize the grid,
and clamp each cursor coordinate that is out of range (the PTY resize has no
effect on this state; `saved_cursor` is NOT touched). -/
def Terminal.resize (t : Terminal) (rows cols : Nat) : Terminal :=
  let t1 := { t with rows := rows, cols := cols, grid := t.grid.resize rows cols }
  let t2 := if rows ≤ t1.cursor.row then { t1 with cursor := { t1.cursor with row := rows - 1 } }
    else t1
  if cols ≤ t2.cursor.col then { t2 with cursor := { t2.cursor with col := cols - 1 } }
  else t2

/-- C-compatible cell struct, from ffi.rs `CCell` (the `u32` codepoint and
`u8` channels are represented as `Nat`). -/
structure CCell where
  ch : Nat
  fg_r : Nat
  fg_g : Nat
  fg_b : Nat
  bg_r : Nat
  bg_g : Nat
  bg_b : Nat
  flags : Nat
deriving DecidableEq

/-- ffi.rs `named_color_to_rgb`: the boundary palette for `NamedColor`
discriminants (16 = Foreground, 17 = Background). -/
def named_color_to_rgb (color : Nat) : Nat × Nat × Nat :=
  if color = 0 then (0, 0, 0)
  else if color = 1 then (205, 49, 49)
  else if color = 2 then (13, 188, 121)
  else if color = 3 then (229, 229, 16)
  else if color = 4 then (36, 114, 200)
  else if color = 5 then (188, 63, 188)
  else if color = 6 then (17, 168, 205)
  else if color = 7 then (229, 229, 229)
  else if color = 8 then (102, 102, 102)
  else if color = 9 then (241, 76, 76)
  else if color = 10 then (35, 209, 139)
  else if color = 11 then (245, 245, 67)
  else if color = 12 then (59, 142, 234)
  else if color = 13 then (214, 112, 214)
  else if color = 14 then (41, 184, 219)
  else if color = 15 then (255, 255, 255)
  else if color = 16 then (200, 200, 200)
  else if color = 17 then (20, 20, 20)
  else (200, 200, 200)

/-- ffi.rs `color_to_rgb`: true color passes through; 256-color indices go
through the 16-color table, the 6×6×6 cube (levels are multiples of 51), or
the 24-step grayscale ramp; named colors go through the table by
discriminant. All the `u8` arithmetic stays below 256, so plain `Nat`
arithmetic coincides with the source. -/
def color_to_rgb : Color → Nat × Nat × Nat
  | .Spec rgb => (rgb.r, rgb.g, rgb.b)
  | .Spec256 idx =>
    if idx < 16 then named_color_to_rgb idx
    else if idx < 232 then
      let i := idx - 16
      ((i / 36) * 51, ((i % 36) / 6) * 51, (i % 6) * 51)
    else
      let gray := (idx - 232) * 10 + 8
      (gray, gray, gray)
  | .Named n => named_color_to_rgb n.toNat

/-- ffi.rs `impl From<&Cell> for CCell`. -/
def CCell.ofCell (cell : Cell) : CCell :=
  let fg := color_to_rgb cell.fg
  let bg := color_to_rgb cell.bg
  ⟨cell.c.toNat, fg.1, fg.2.1, fg.2.2, bg.1, bg.2.1, bg.2.2, cell.flags.bits⟩

/-- The literal `CCell` that ffi.rs `terminal_get_cell` returns on an
out-of-bounds lookup: space, foreground (200,200,200), background (0,0,0),
no flags. -/
def oob_ccell : CCell := ⟨(' ' : Char).toNat, 200, 200, 200, 0, 0, 0, 0⟩

/-- ffi.rs `terminal_get_cell` on a non-null terminal: convert the cell when
the lookup hits, else return the hard-coded default literal. -/
def terminal_get_cell (t : Terminal) (row col : Nat) : CCell :=
  match t.grid.get_cell row col with
  | some cell => CCell.ofCell cell
  | none => oob_ccell

/-- One public `Grid` mutation, for stating properties over arbitrary
sequences of grid operations. `write r c ch` is the
`get_cell_mut`-then-assign pattern (as in the repository's own tests). -/
inductive GOp where
  | scrollUp
  | scrollDown
  | clear
  | clearToEnd (r c : Nat)
  | clearFromStart (r c : Nat)
  | write (r c : Nat) (ch : Char)
  | resize (r c : Nat)
deriving DecidableEq

/-- Interpret one `GOp` on a grid. -/
def Grid.applyOp (g : Grid) : GOp → Grid
  | .scrollUp => g.scroll_up
  | .scrollDown => g.scroll_down
  | .clear => g.clear
  | .clearToEnd r c => g.clear_to_end r c
  | .clearFromStart r c => g.clear_from_start r c
  | .write r c ch => g.modifyCellAt r c (fun cell => { cell with c := ch })
  | .resize r c => g.resize r c

/-- Interpret a sequence of grid operations, left to right. -/
def Grid.applyOps (g : Grid) (ops : List GOp) : Grid :=
  ops.foldl Grid.applyOp g

/-- An operation is non-shrinking when it is not a resize that removes rows
(such a resize moves rows into the scrollback without the cap). -/
def okShrinkB (g : Grid) : GOp → Bool
  | .resize r _ => decide (g.rows.length ≤ r)
  | _ => true

/-- Every operation in the sequence, run from `g`, keeps at least as many
rows as it removes to the scrollback (no row-shrinking resize). -/
def noShrinkB : Grid → List GOp → Bool
  | _, [] => true
  | g, op :: ops => okShrinkB g op && noShrinkB (g.applyOp op) ops

/-- An operation is shift-free when it neither removes rows from the top
(`scroll_up`, shrinking `resize`) nor inserts a row at the top
(`scroll_down`); shift-free operations leave every existing row index in
place. -/
def okShiftB (g : Grid) : GOp → Bool
  | .scrollUp => false
  | .scrollDown => false
  | .resize r _ => decide (g.rows.length ≤ r)
  | _ => true

/-- Every operation in the sequence, run from `g`, is shift-free. -/
def noShiftB : Grid → List GOp → Bool
  | _, [] => true
  | g, op :: ops => okShiftB g op && noShiftB (g.applyOp op) ops

/-- A row index currently holds a dirty row. -/
def dirtyAt (g : Grid) (i : Nat) : Prop :=
  ∃ r, g.rows[i]? = some r ∧ r.dirty = true

/-- An action is a cursor-movement or SGR dispatch: a CSI with final byte
`A`, `B`, `C`, `D`, `H`, `f` or `m`. These are the operations C9 quantifies
over between save and restore. -/
def cursorStyleOpB : Action → Bool
  | .csiDisp _ c =>
    (c == 'A') || (c == 'B') || (c == 'C') || (c == 'D') || (c == 'H') || (c == 'f') || (c == 'm')
  | _ => false

/-- The saved cursor, when present, lies inside the given bounds. -/
def savedOk (sv : Option Cursor) (rows cols : Nat) : Prop :=
  match sv with
  | none => True
  | some s => s.row < rows ∧ s.col < cols

instance savedOkDecidable (sv : Option Cursor) (rows cols : Nat) :
    Decidable (savedOk sv rows cols) := by
  unfold savedOk
  cases sv <;> exact inferInstance

/-- Cursor in bounds, saved cursor (when present) in bounds, and at least
one row and one column: the inductive invariant for the cursor-bounds claim.
The source never clamps on restore, so the saved snapshot must be assumed in
bounds for the invariant to be preserved. -/
def Good (t : Terminal) : Prop :=
  1 ≤ t.rows ∧ 1 ≤ t.cols ∧ t.cursor.row < t.rows ∧ t.cursor.col < t.cols ∧
    savedOk t.saved_cursor t.rows t.cols

instance goodDecidable (t : Terminal) : Decidable (Good t) := by
  unfold Good
  exact inferInstance

/-- Concrete terminal whose saved cursor predates a shrinking resize: on a
3×3 terminal, move to (2,2) with CUP, save with CSI s, then resize to 1×1.
The cursor is clamped to (0,0) but `saved_cursor` still holds (2,2). -/
def t_saved_oob : Terminal :=
  ((Terminal.new 3 3).process_bytes
    [0x1B, 0x5B, 0x33, 0x3B, 0x33, 0x48, 0x1B, 0x5B, 0x73]).resize 1 1

/-- Concrete 2×2 terminal after printing "A": cursor at (0,1). -/
def t_after_A : Terminal := (Terminal.new 2 2).process_bytes [0x41]

/-- Concrete 2×2 terminal after printing "AB": the B lands in the last
column and the cursor wraps. -/
def t_after_AB : Terminal := (Terminal.new 2 2).process_bytes [0x41, 0x42]

/-- Concrete grid for the dirty-row shift: 3×2, cleaned, then one write to
row 1 (the only dirty row). -/
def g_dirty_demo : Grid :=
  ((Grid.new 3 2 10).mark_clean).modifyCellAt 1 0 (fun cell => { cell with c := 'X' })

/-! ## Helper lemmas -/

lemma getElem?_mapIdxFrom (f : Nat → α → α) : ∀ (l : List α) (k i : Nat),
    (mapIdxFrom f k l)[i]? = (l[i]?).map (f (k + i)) := by
  intro l
  induction l with
  | nil => intro k i; simp [mapIdxFrom]
  | cons a as ih =>
    intro k i
    cases i with
    | zero => simp [mapIdxFrom]
    | succ i =>
      rw [mapIdxFrom, List.getElem?_cons_succ, List.getElem?_cons_succ, ih (k + 1) i]
      have h : k + 1 + i = k + (i + 1) := by omega
      rw [h]

lemma length_mapIdxFrom (f : Nat → α → α) : ∀ (k : Nat) (l : List α),
    (mapIdxFrom f k l).length = l.length := by
  intro k l
  induction l generalizing k with
  | nil => rfl
  | cons a as ih => simp [mapIdxFrom, ih]

lemma sgr_loop_row : ∀ (fuel : Nat) (cur : Cursor) (l : List Nat),
    (sgr_loop fuel cur l).row = cur.row := by
  intro fuel
  induction fuel with
  | zero => intro cur l; rfl
  | succ n ih =>
    intro cur l
    cases l with
    | nil => rfl
    | cons p rest =>
      rw [sgr_loop]
      rcases hex : sgrExt rest with _ | ⟨color, rest2⟩ <;>
        simp only [hex, apply_ite Cursor.row, ih, ite_self, Cursor.reset_style]

lemma sgr_loop_col : ∀ (fuel : Nat) (cur : Cursor) (l : List Nat),
    (sgr_loop fuel cur l).col = cur.col := by
  intro fuel
  induction fuel with
  | zero => intro cur l; rfl
  | succ n ih =>
    intro cur l
    cases l with
    | nil => rfl
    | cons p rest =>
      rw [sgr_loop]
      rcases hex : sgrExt rest with _ | ⟨color, rest2⟩ <;>
        simp only [hex, apply_ite Cursor.col, ih, ite_self, Cursor.reset_style]

lemma newline_rows (t : Terminal) : (t.newline).rows = t.rows := by
  simp only [Terminal.newline, apply_ite Terminal.rows, ite_self]

lemma newline_cols (t : Terminal) : (t.newline).cols = t.cols := by
  simp only [Terminal.newline, apply_ite Terminal.cols, ite_self]

lemma newline_pstate (t : Terminal) : (t.newline).parser = t.parser := by
  simp only [Terminal.newline, apply_ite Terminal.parser, ite_self]

lemma newline_saved (t : Terminal) : (t.newline).saved_cursor = t.saved_cursor := by
  simp only [Terminal.newline, apply_ite Terminal.saved_cursor, ite_self]

lemma write_char_rows (t : Terminal) (c : Char) : (t.write_char c).rows = t.rows := by
  simp only [Terminal.write_char, apply_ite Terminal.rows, newline_rows, ite_self]

lemma write_char_cols (t : Terminal) (c : Char) : (t.write_char c).cols = t.cols := by
  simp only [Terminal.write_char, apply_ite Terminal.cols, newline_cols, ite_self]

lemma write_char_pstate (t : Terminal) (c : Char) : (t.write_char c).parser = t.parser := by
  simp only [Terminal.write_char, apply_ite Terminal.parser, newline_pstate, ite_self]

lemma write_char_saved (t : Terminal) (c : Char) :
    (t.write_char c).saved_cursor = t.saved_cursor := by
  simp only [Terminal.write_char, apply_ite Terminal.saved_cursor, newline_saved, ite_self]

lemma handle_sgr_rows (t : Terminal) (ps : List Nat) : (t.handle_sgr ps).rows = t.rows := by
  simp only [Terminal.handle_sgr, apply_ite Terminal.rows, ite_self]

lemma handle_sgr_cols (t : Terminal) (ps : List Nat) : (t.handle_sgr ps).cols = t.cols := by
  simp only [Terminal.handle_sgr, apply_ite Terminal.cols, ite_self]

lemma handle_sgr_pstate (t : Terminal) (ps : List Nat) : (t.handle_sgr ps).parser = t.parser := by
  simp only [Terminal.handle_sgr, apply_ite Terminal.parser, ite_self]

lemma handle_sgr_saved (t : Terminal) (ps : List Nat) :
    (t.handle_sgr ps).saved_cursor = t.saved_cursor := by
  simp only [Terminal.handle_sgr, apply_ite Terminal.saved_cursor, ite_self]

lemma handle_sgr_cursor_row (t : Terminal) (ps : List Nat) :
    (t.handle_sgr ps).cursor.row = t.cursor.row := by
  simp only [Terminal.handle_sgr, apply_ite Terminal.cursor, apply_ite Cursor.row,
    sgr_loop_row, Cursor.reset_style, ite_self]

lemma handle_sgr_cursor_col (t : Terminal) (ps : List Nat) :
    (t.handle_sgr ps).cursor.col = t.cursor.col := by
  simp only [Terminal.handle_sgr, apply_ite Terminal.cursor, apply_ite Cursor.col,
    sgr_loop_col, Cursor.reset_style, ite_self]

lemma csi_dispatch_rows (t : Terminal) (ps : List Nat) (c : Char) :
    (t.csi_dispatch ps c).rows = t.rows := by
  cases hsv : t.saved_cursor <;>
    simp only [Terminal.csi_dispatch, hsv, apply_ite Terminal.rows, handle_sgr_rows, ite_self]

lemma csi_dispatch_cols (t : Terminal) (ps : List Nat) (c : Char) :
    (t.csi_dispatch ps c).cols = t.cols := by
  cases hsv : t.saved_cursor <;>
    simp only [Terminal.csi_dispatch, hsv, apply_ite Terminal.cols, handle_sgr_cols, ite_self]

lemma csi_dispatch_pstate (t : Terminal) (ps : List Nat) (c : Char) :
    (t.csi_dispatch ps c).parser = t.parser := by
  cases hsv : t.saved_cursor <;>
    simp only [Terminal.csi_dispatch, hsv, apply_ite Terminal.parser, handle_sgr_pstate, ite_self]

lemma execute_rows (t : Terminal) (b : Nat) : (t.execute b).rows = t.rows := by
  simp only [Terminal.execute, apply_ite Terminal.rows, newline_rows, write_char_rows, ite_self]

lemma execute_cols (t : Terminal) (b : Nat) : (t.execute b).cols = t.cols := by
  simp only [Terminal.execute, apply_ite Terminal.cols, newline_cols, write_char_cols, ite_self]

lemma execute_pstate (t : Terminal) (b : Nat) : (t.execute b).parser = t.parser := by
  simp only [Terminal.execute, apply_ite Terminal.parser, newline_pstate, write_char_pstate,
    ite_self]

lemma execute_saved (t : Terminal) (b : Nat) :
    (t.execute b).saved_cursor = t.saved_cursor := by
  simp only [Terminal.execute, apply_ite Terminal.saved_cursor, newline_saved, write_char_saved,
    ite_self]

lemma applyAction_pstate (t : Terminal) (a : Action) :
    (applyAction t a).parser = t.parser := by
  cases a <;>
    simp [applyAction, write_char_pstate, execute_pstate, csi_dispatch_pstate]

lemma foldl_applyAction_pstate (acts : List Action) (t : Terminal) :
    (acts.foldl applyAction t).parser = t.parser := by
  induction acts generalizing t with
  | nil => rfl
  | cons a as ih => rw [List.foldl_cons, ih, applyAction_pstate]

/-! Branch equations for `csi_dispatch` at each literal final byte; all hold
by unfolding the if-chain on the (decidable) character comparisons. -/

lemma csi_eq_A (t : Terminal) (ps : List Nat) :
    t.csi_dispatch ps 'A' =
      { t with cursor := { t.cursor with row := t.cursor.row - max ((ps[0]?).getD 1) 1 } } := rfl

lemma csi_eq_B (t : Terminal) (ps : List Nat) :
    t.csi_dispatch ps 'B' =
      { t with cursor := { t.cursor with
          row := min (t.cursor.row + max ((ps[0]?).getD 1) 1) (t.rows - 1) } } := rfl

lemma csi_eq_C (t : Terminal) (ps : List Nat) :
    t.csi_dispatch ps 'C' =
      { t with cursor := { t.cursor with
          col := min (t.cursor.col + max ((ps[0]?).getD 1) 1) (t.cols - 1) } } := rfl

lemma csi_eq_D (t : Terminal) (ps : List Nat) :
    t.csi_dispatch ps 'D' =
      { t with cursor := { t.cursor with col := t.cursor.col - max ((ps[0]?).getD 1) 1 } } := rfl

lemma csi_eq_H (t : Terminal) (ps : List Nat) :
    t.csi_dispatch ps 'H' =
      { t with cursor := { t.cursor with
          row := min (max ((ps[0]?).getD 1) 1 - 1) (t.rows - 1),
          col := min (max ((ps[1]?).getD 1) 1 - 1) (t.cols - 1) } } := rfl

lemma csi_eq_f (t : Terminal) (ps : List Nat) :
    t.csi_dispatch ps 'f' =
      { t with cursor := { t.cursor with
          row := min (max ((ps[0]?).getD 1) 1 - 1) (t.rows - 1),
          col := min (max ((ps[1]?).getD 1) 1 - 1) (t.cols - 1) } } := rfl

lemma csi_eq_m (t : Terminal) (ps : List Nat) :
    t.csi_dispatch ps 'm' = t.handle_sgr ps := rfl

lemma csi_eq_s (t : Terminal) (ps : List Nat) :
    t.csi_dispatch ps 's' = { t with saved_cursor := some t.cursor } := rfl

lemma csi_eq_u (t : Terminal) (ps : List Nat) :
    t.csi_dispatch ps 'u' =
      match t.saved_cursor with
      | some saved => { t with cursor := saved }
      | none => t := rfl

lemma csi_J_cursor (t : Terminal) (ps : List Nat) :
    (t.csi_dispatch ps 'J').cursor = t.cursor := by
  rw [Terminal.csi_dispatch]
  repeat rw [if_neg (by decide)]
  simp only [apply_ite Terminal.cursor, ite_self, if_true]

lemma csi_J_saved (t : Terminal) (ps : List Nat) :
    (t.csi_dispatch ps 'J').saved_cursor = t.saved_cursor := by
  rw [Terminal.csi_dispatch]
  repeat rw [if_neg (by decide)]
  simp only [apply_ite Terminal.saved_cursor, ite_self, if_true]

lemma csi_K_cursor (t : Terminal) (ps : List Nat) :
    (t.csi_dispatch ps 'K').cursor = t.cursor := rfl

lemma csi_K_saved (t : Terminal) (ps : List Nat) :
    (t.csi_dispatch ps 'K').saved_cursor = t.saved_cursor := rfl

lemma csi_eq_other (t : Terminal) (ps : List Nat) (c : Char)
    (hA : ¬c = 'A') (hB : ¬c = 'B') (hC : ¬c = 'C') (hD : ¬c = 'D')
    (hH : ¬c = 'H') (hf : ¬c = 'f') (hJ : ¬c = 'J') (hK : ¬c = 'K')
    (hm : ¬c = 'm') (hs : ¬c = 's') (hu : ¬c = 'u') :
    t.csi_dispatch ps c = t := by
  rw [Terminal.csi_dispatch]
  rw [if_neg hA, if_neg hB, if_neg hC, if_neg hD, if_neg (not_or.mpr ⟨hH, hf⟩),
    if_neg hJ, if_neg hK, if_neg hm, if_neg hs, if_neg hu]

/-! Preservation of the cursor-bounds invariant `Good` by every handler
operation. -/

lemma good_newline' (t : Terminal) (h1 : 1 ≤ t.rows) (h2 : 1 ≤ t.cols)
    (h5 : savedOk t.saved_cursor t.rows t.cols) : Good t.newline := by
  refine ⟨?_, ?_, ?_, ?_, ?_⟩
  · rw [newline_rows]; exact h1
  · rw [newline_cols]; exact h2
  · rw [newline_rows]
    simp only [Terminal.newline, apply_ite Terminal.cursor, apply_ite Cursor.row]
    split_ifs <;> omega
  · rw [newline_cols]
    simp only [Terminal.newline, apply_ite Terminal.cursor, apply_ite Cursor.col, ite_self]
    omega
  · rw [newline_saved, newline_rows, newline_cols]; exact h5

lemma good_newline (t : Terminal) (h : Good t) : Good t.newline :=
  good_newline' t h.1 h.2.1 h.2.2.2.2

lemma good_write_char (t : Terminal) (c : Char) (h : Good t) : Good (t.write_char c) := by
  obtain ⟨h1, h2, h3, h4, h5⟩ := h
  rw [Terminal.write_char]
  by_cases hc1 : c = '\x0d'
  · rw [if_pos hc1]; exact ⟨h1, h2, h3, by dsimp only; omega, h5⟩
  rw [if_neg hc1]
  by_cases hc2 : c = '\x0a'
  · rw [if_pos hc2]; exact good_newline' t h1 h2 h5
  rw [if_neg hc2]
  by_cases hc3 : c = '\x09'
  · rw [if_pos hc3]
    refine ⟨h1, h2, h3, ?_, h5⟩
    dsimp only
    split_ifs <;> omega
  rw [if_neg hc3]
  by_cases hc4 : c = '\x08'
  · rw [if_pos hc4]
    split
    · exact ⟨h1, h2, h3, by dsimp only; omega, h5⟩
    · exact ⟨h1, h2, h3, h4, h5⟩
  rw [if_neg hc4]
  dsimp only
  split_ifs with hw
  · exact good_newline' _ h1 h2 h5
  · exact ⟨h1, h2, h3, by dsimp only; omega, h5⟩

lemma good_handle_sgr (t : Terminal) (ps : List Nat) (h : Good t) :
    Good (t.handle_sgr ps) := by
  obtain ⟨h1, h2, h3, h4, h5⟩ := h
  refine ⟨?_, ?_, ?_, ?_, ?_⟩
  · rw [handle_sgr_rows]; exact h1
  · rw [handle_sgr_cols]; exact h2
  · rw [handle_sgr_rows, handle_sgr_cursor_row]; exact h3
  · rw [handle_sgr_cols, handle_sgr_cursor_col]; exact h4
  · rw [handle_sgr_saved, handle_sgr_rows, handle_sgr_cols]; exact h5

lemma good_execute (t : Terminal) (b : Nat) (h : Good t) : Good (t.execute b) := by
  obtain ⟨h1, h2, h3, h4, h5⟩ := h
  rw [Terminal.execute]
  split_ifs
  · exact good_newline' t h1 h2 h5
  · exact ⟨h1, h2, h3, by dsimp only; omega, h5⟩
  · exact good_write_char t _ ⟨h1, h2, h3, h4, h5⟩
  · exact good_write_char t _ ⟨h1, h2, h3, h4, h5⟩
  · exact ⟨h1, h2, h3, h4, h5⟩

lemma good_csi_dispatch (t : Terminal) (ps : List Nat) (c : Char) (h : Good t) :
    Good (t.csi_dispatch ps c) := by
  obtain ⟨h1, h2, h3, h4, h5⟩ := h
  by_cases hA : c = 'A'
  · subst hA; rw [csi_eq_A]; exact ⟨h1, h2, by dsimp only; omega, h4, h5⟩
  by_cases hB : c = 'B'
  · subst hB; rw [csi_eq_B]; exact ⟨h1, h2, by dsimp only; omega, h4, h5⟩
  by_cases hC : c = 'C'
  · subst hC; rw [csi_eq_C]; exact ⟨h1, h2, h3, by dsimp only; omega, h5⟩
  by_cases hD : c = 'D'
  · subst hD; rw [csi_eq_D]; exact ⟨h1, h2, h3, by dsimp only; omega, h5⟩
  by_cases hH : c = 'H'
  · subst hH; rw [csi_eq_H]
    exact ⟨h1, h2, by dsimp only; omega, by dsimp only; omega, h5⟩
  by_cases hf : c = 'f'
  · subst hf; rw [csi_eq_f]
    exact ⟨h1, h2, by dsimp only; omega, by dsimp only; omega, h5⟩
  by_cases hJ : c = 'J'
  · subst hJ
    refine ⟨?_, ?_, ?_, ?_, ?_⟩
    · rw [csi_dispatch_rows]; exact h1
    · rw [csi_dispatch_cols]; exact h2
    · rw [csi_dispatch_rows, csi_J_cursor]; exact h3
    · rw [csi_dispatch_cols, csi_J_cursor]; exact h4
    · rw [csi_J_saved, csi_dispatch_rows, csi_dispatch_cols]; exact h5
  by_cases hK : c = 'K'
  · subst hK
    refine ⟨?_, ?_, ?_, ?_, ?_⟩
    · rw [csi_dispatch_rows]; exact h1
    · rw [csi_dispatch_cols]; exact h2
    · rw [csi_dispatch_rows, csi_K_cursor]; exact h3
    · rw [csi_dispatch_cols, csi_K_cursor]; exact h4
    · rw [csi_K_saved, csi_dispatch_rows, csi_dispatch_cols]; exact h5
  by_cases hm : c = 'm'
  · subst hm; rw [csi_eq_m]; exact good_handle_sgr t ps ⟨h1, h2, h3, h4, h5⟩
  by_cases hs : c = 's'
  · subst hs; rw [csi_eq_s]; exact ⟨h1, h2, h3, h4, ⟨h3, h4⟩⟩
  by_cases hu : c = 'u'
  · subst hu; rw [csi_eq_u]
    cases hsv : t.saved_cursor with
    | none => exact ⟨h1, h2, h3, h4, h5⟩
    | some s =>
      have hs5 : s.row < t.rows ∧ s.col < t.cols := by
        unfold savedOk at h5
        rw [hsv] at h5
        exact h5
      refine ⟨h1, h2, hs5.1, hs5.2, ?_⟩
      show savedOk (some s) t.rows t.cols
      exact hs5
  rw [csi_eq_other t ps c hA hB hC hD hH hf hJ hK hm hs hu]
  exact ⟨h1, h2, h3, h4, h5⟩

lemma good_applyAction (t : Terminal) (a : Action) (h : Good t) :
    Good (applyAction t a) := by
  cases a with
  | print c => exact good_write_char t c h
  | execByte b => exact good_execute t b h
  | csiDisp ps c => exact good_csi_dispatch t ps c h
  | escDisp b => exact h
  | oscDisp => exact h

lemma good_foldl_applyAction (acts : List Action) (t : Terminal) (h : Good t) :
    Good (acts.foldl applyAction t) := by
  induction acts generalizing t with
  | nil => exact h
  | cons a as ih => exact ih _ (good_applyAction t a h)

lemma good_parser_set (t : Terminal) (p : PState) (h : Good t) :
    Good { t with parser := p } := h

lemma good_process_bytes (t : Terminal) (bs : List Nat) (h : Good t) :
    Good (t.process_bytes bs) := by
  rw [Terminal.process_bytes]
  have key : ∀ (bs : List Nat) (t0 : Terminal) (p : PState), Good t0 →
      Good ((bs.foldl pbStep (t0, p)).1) := by
    intro bs
    induction bs with
    | nil => intro t0 p h0; exact h0
    | cons b bs ih =>
      intro t0 p h0
      rw [List.foldl_cons]
      exact ih _ _ (good_foldl_applyAction _ t0 h0)
  exact good_parser_set _ _ (key bs _ t.parser (good_parser_set t .ground h))

lemma newline_cursor_col (t : Terminal) : (t.newline).cursor.col = 0 := by
  simp only [Terminal.newline, apply_ite Terminal.cursor, apply_ite Cursor.col, ite_self]

lemma get_cell_oob_none (g : Grid) (row col : Nat) (hwf : g.WF)
    (h : g.rows.length ≤ row ∨ g.cols ≤ col) : g.get_cell row col = none := by
  unfold Grid.get_cell
  rcases h with h | h
  · rw [List.getElem?_eq_none h]
    rfl
  · cases hr : g.rows[row]? with
    | none => rfl
    | some r =>
      have hlen : r.cells.length = g.cols := hwf r (List.getElem?_mem hr)
      show r.cells[col]? = none
      rw [List.getElem?_eq_none (by omega)]

/-! ## Claim theorems -/

/-- C1 (corrected): for every terminal whose cursor is in bounds and whose
saved cursor, when set, is also in bounds (with at least one row and one
column), processing any byte sequence leaves the cursor with
`cursor.row < rows` and `cursor.col < cols`. The original claim, which also
admitted terminals whose `saved_cursor` predates a shrinking resize, is
false because CSI u restores without clamping (see the counterexample). -/
theorem c1_cursor_in_bounds (t : Terminal) (bs : List Nat) (h : Good t) :
    (t.process_bytes bs).cursor.row < (t.process_bytes bs).rows ∧
    (t.process_bytes bs).cursor.col < (t.process_bytes bs).cols := by
  have hg := good_process_bytes t bs h
  exact ⟨hg.2.2.1, hg.2.2.2.1⟩

/-- Witness: a fresh 2×2 terminal satisfies `Good`, and after processing
"ESC [ B A" its cursor is in bounds. -/
theorem c1_cursor_in_bounds_witness :
    Good (Terminal.new 2 2) ∧
    (((Terminal.new 2 2).process_bytes [0x1B, 0x5B, 0x42, 0x41]).cursor.row <
        ((Terminal.new 2 2).process_bytes [0x1B, 0x5B, 0x42, 0x41]).rows ∧
      ((Terminal.new 2 2).process_bytes [0x1B, 0x5B, 0x42, 0x41]).cursor.col <
        ((Terminal.new 2 2).process_bytes [0x1B, 0x5B, 0x42, 0x41]).cols) :=
  ⟨by decide, c1_cursor_in_bounds (Terminal.new 2 2) [0x1B, 0x5B, 0x42, 0x41] (by decide)⟩

/-- Counterexample to C1 as stated: `t_saved_oob` has `rows = cols = 1` (both
≥ 1) and a saved cursor captured before a shrinking resize; processing the
bytes "ESC [ u" leaves `cursor.row = 2 ≥ rows = 1`. -/
theorem c1_counterexample :
    1 ≤ t_saved_oob.rows ∧ 1 ≤ t_saved_oob.cols ∧
    ¬((t_saved_oob.process_bytes [0x1B, 0x5B, 0x75]).cursor.row <
        (t_saved_oob.process_bytes [0x1B, 0x5B, 0x75]).rows) := by decide

/-- C2 (corrected): when a CSI `u` is dispatched with `saved_cursor` set, the
cursor becomes the saved snapshot EXACTLY — its position is NOT clamped to
the current bounds, so after a shrinking resize the cursor can land out of
bounds (see the counterexample); when `saved_cursor` is unset the terminal is
unchanged. -/
theorem c2_restore_exact (t : Terminal) (params : List Nat) :
    t.csi_dispatch params 'u' =
      match t.saved_cursor with
      | some saved => { t with cursor := saved }
      | none => t := rfl

/-- Counterexample to C2 as stated: restoring on `t_saved_oob` (saved cursor
(2,2), current bounds 1×1) yields `cursor.row = 2`, not a value clamped below
`rows = 1`. -/
theorem c2_counterexample :
    t_saved_oob.saved_cursor =
      some ⟨2, 2, Color.Named .Foreground, Color.Named .Background, ⟨0⟩⟩ ∧
    (t_saved_oob.csi_dispatch [0] 'u').cursor.row = 2 ∧
    ¬((t_saved_oob.csi_dispatch [0] 'u').cursor.row < t_saved_oob.rows) := by decide

/-- C4 (corrected): executing LF (0x0A) performs a newline, which advances
`cursor.row` (scrolling the grid up and clamping to `rows - 1` exactly when
the bottom is passed) and ALSO resets `cursor.col` to 0 (the source's LF
behaves as CR+LF); VT (0x0B) and FF (0x0C) are ignored — they do not perform
a newline. -/
theorem c4_lf_newline_vt_ff_ignored (t : Terminal) :
    Terminal.execute t 0x0A = t.newline
  ∧ (t.newline).cursor.col = 0
  ∧ (t.newline).cursor.row =
      (if t.rows ≤ t.cursor.row + 1 then t.rows - 1 else t.cursor.row + 1)
  ∧ (t.newline).grid =
      (if t.rows ≤ t.cursor.row + 1 then t.grid.scroll_up else t.grid)
  ∧ Terminal.execute t 0x0B = t
  ∧ Terminal.execute t 0x0C = t := by
  refine ⟨rfl, newline_cursor_col t, ?_, ?_, rfl, rfl⟩
  · simp only [Terminal.newline, apply_ite Terminal.cursor, apply_ite Cursor.row]
  · simp only [Terminal.newline, apply_ite Terminal.grid]

/-- Counterexample to C4 as stated: on `t_after_A` (cursor at (0,1)),
VT (0x0B) leaves the terminal unchanged instead of advancing the row, and
LF (0x0A) resets `cursor.col` from 1 to 0 even though the claim says the
column is not changed. -/
theorem c4_counterexample :
    Terminal.execute t_after_A 0x0B = t_after_A ∧
    ¬((Terminal.execute t_after_A 0x0B).cursor.row = t_after_A.cursor.row + 1) ∧
    t_after_A.cursor.col = 1 ∧
    (Terminal.execute t_after_A 0x0A).cursor.col = 0 := by decide

/-- C5 (corrected): printing a non-special character writes it (with the
cursor's style) at the CURRENT cursor position, advances `cursor.col`, and
then wraps immediately — eagerly at the END of the character — when the new
column reaches `cols`; consequently `cursor.col` is always < `cols` after a
print and never rests at `cols`, and after writing into the last column the
cursor has already moved to column 0 of the next row. There is no pre-write
wrap step. -/
theorem c5_write_char_wraps_after (t : Terminal) (c : Char)
    (h1 : ¬c = '\x0d') (h2 : ¬c = '\x0a') (h3 : ¬c = '\x09') (h4 : ¬c = '\x08')
    (h5 : 1 ≤ t.cols) :
    (t.write_char c =
      (if t.cols ≤ t.cursor.col + 1 then
        Terminal.newline { t with
          grid := (t.grid.modifyCellAt t.cursor.row t.cursor.col
            (fun _ => ⟨c, t.cursor.fg, t.cursor.bg, t.cursor.flags⟩)),
          cursor := { t.cursor with col := t.cursor.col + 1 } }
      else { t with
          grid := (t.grid.modifyCellAt t.cursor.row t.cursor.col
            (fun _ => ⟨c, t.cursor.fg, t.cursor.bg, t.cursor.flags⟩)),
          cursor := { t.cursor with col := t.cursor.col + 1 } }))
  ∧ (t.write_char c).cursor.col < t.cols := by
  constructor
  · rw [Terminal.write_char, if_neg h1, if_neg h2, if_neg h3, if_neg h4]
  · rw [Terminal.write_char, if_neg h1, if_neg h2, if_neg h3, if_neg h4]
    dsimp only
    split_ifs with hw
    · rw [newline_cursor_col]
      omega
    · dsimp only
      omega

/-- Witness for C5 at a fresh 2×2 terminal printing 'A'. -/
theorem c5_write_char_wraps_after_witness :
    ((Terminal.new 2 2).write_char 'A' =
      (if (Terminal.new 2 2).cols ≤ (Terminal.new 2 2).cursor.col + 1 then
        Terminal.newline { (Terminal.new 2 2) with
          grid := ((Terminal.new 2 2).grid.modifyCellAt (Terminal.new 2 2).cursor.row
            (Terminal.new 2 2).cursor.col
            (fun _ => ⟨'A', (Terminal.new 2 2).cursor.fg, (Terminal.new 2 2).cursor.bg,
              (Terminal.new 2 2).cursor.flags⟩)),
          cursor := { (Terminal.new 2 2).cursor with col := (Terminal.new 2 2).cursor.col + 1 } }
      else { (Terminal.new 2 2) with
          grid := ((Terminal.new 2 2).grid.modifyCellAt (Terminal.new 2 2).cursor.row
            (Terminal.new 2 2).cursor.col
            (fun _ => ⟨'A', (Terminal.new 2 2).cursor.fg, (Terminal.new 2 2).cursor.bg,
              (Terminal.new 2 2).cursor.flags⟩)),
          cursor := { (Terminal.new 2 2).cursor with col := (Terminal.new 2 2).cursor.col + 1 } }))
    ∧ ((Terminal.new 2 2).write_char 'A').cursor.col < (Terminal.new 2 2).cols :=
  c5_write_char_wraps_after (Terminal.new 2 2) 'A'
    (by decide) (by decide) (by decide) (by decide) (by decide)

/-- Counterexample to C5 as stated: printing "AB" on a fresh 2×2 terminal
writes B into the last column; the claim predicts the cursor rests at
`(row, col) = (0, 2)` (col = cols, row unchanged), but the cursor is at
(1, 0): the wrap has already happened. -/
theorem c5_counterexample :
    t_after_AB.cursor.col = 0 ∧ t_after_AB.cursor.row = 1 ∧
    ¬(t_after_AB.cursor.col = (Terminal.new 2 2).cols ∧ t_after_AB.cursor.row = 0) := by
  decide

/-- C6 (corrected): in the SGR extended-color forms the `as u8` conversions
TRUNCATE modulo 256 (they do not saturate): the stored index or channel for
a parameter `v` is `v % 256`, so `v > 255` does not become 255 (e.g. 256
becomes 0 — see the counterexample). -/
theorem c6_sgr_u8_truncates (t : Terminal) (v r g b : Nat) :
    ((t.handle_sgr [38, 5, v]).cursor.fg = Color.Spec256 (v % 256))
  ∧ ((t.handle_sgr [48, 5, v]).cursor.bg = Color.Spec256 (v % 256))
  ∧ ((t.handle_sgr [38, 2, r, g, b]).cursor.fg = Color.Spec ⟨r % 256, g % 256, b % 256⟩)
  ∧ ((t.handle_sgr [48, 2, r, g, b]).cursor.bg = Color.Spec ⟨r % 256, g % 256, b % 256⟩) :=
  ⟨rfl, rfl, rfl, rfl⟩

/-- Counterexample to C6 as stated: SGR `38;2;256;300;999` stores the truncated
channels (0, 44, 231), not the saturated (255, 255, 255). -/
theorem c6_counterexample :
    ((Terminal.new 2 2).handle_sgr [38, 2, 256, 300, 999]).cursor.fg =
      Color.Spec ⟨0, 44, 231⟩ ∧
    ¬(((Terminal.new 2 2).handle_sgr [38, 2, 256, 300, 999]).cursor.fg =
      Color.Spec ⟨255, 255, 255⟩) := by decide

/-- C7 (corrected): for coordinates outside the grid, `terminal_get_cell`
returns the hard-coded cell { ' ', fg (200,200,200), bg (0,0,0), flags 0 } —
whose BACKGROUND is (0,0,0), NOT the boundary-palette default (20,20,20) —
so it differs from what an in-bounds never-written cell yields. -/
theorem c7_oob_cell (t : Terminal) (row col : Nat) (hwf : t.grid.WF)
    (h : t.grid.rows.length ≤ row ∨ t.grid.cols ≤ col) :
    terminal_get_cell t row col = ⟨32, 200, 200, 200, 0, 0, 0, 0⟩
  ∧ CCell.ofCell Cell.default = ⟨32, 200, 200, 200, 20, 20, 20, 0⟩
  ∧ terminal_get_cell t row col ≠ CCell.ofCell Cell.default := by
  have hnone := get_cell_oob_none t.grid row col hwf h
  have hmain : terminal_get_cell t row col = ⟨32, 200, 200, 200, 0, 0, 0, 0⟩ := by
    unfold terminal_get_cell
    rw [hnone]
    rfl
  refine ⟨hmain, by decide, ?_⟩
  rw [hmain]
  decide

/-- Witness for C7: on a fresh 1×1 terminal, (5,0) is out of bounds. -/
theorem c7_oob_cell_witness :
    (Grid.WF (Terminal.new 1 1).grid ∧
      ((Terminal.new 1 1).grid.rows.length ≤ 5 ∨ (Terminal.new 1 1).grid.cols ≤ 0)) ∧
    (terminal_get_cell (Terminal.new 1 1) 5 0 = ⟨32, 200, 200, 200, 0, 0, 0, 0⟩
      ∧ CCell.ofCell Cell.default = ⟨32, 200, 200, 200, 20, 20, 20, 0⟩
      ∧ terminal_get_cell (Terminal.new 1 1) 5 0 ≠ CCell.ofCell Cell.default) :=
  ⟨⟨by decide, by decide⟩,
    c7_oob_cell (Terminal.new 1 1) 5 0 (by decide) (by decide)⟩

/-- Counterexample to C7 as stated: the out-of-bounds cell's background red
channel is 0, while the in-bounds never-written cell at (0,0) resolves its
background to (20,20,20); the two CCells differ. -/
theorem c7_counterexample :
    (terminal_get_cell (Terminal.new 2 2) 5 5).bg_r = 0 ∧
    (terminal_get_cell (Terminal.new 2 2) 0 0).bg_r = 20 ∧
    terminal_get_cell (Terminal.new 2 2) 5 5 ≠ terminal_get_cell (Terminal.new 2 2) 0 0 := by
  decide

/-! Scrollback-cap lemmas for C3. -/

lemma resize_max (g : Grid) (r c : Nat) :
    (g.resize r c).max_scrollback = g.max_scrollback := by
  rw [Grid.resize]
  split_ifs <;> rfl

lemma resize_scrollback_of_no_shrink (g : Grid) (r c : Nat) (h : g.rows.length ≤ r) :
    (g.resize r c).scrollback = g.scrollback := by
  rw [Grid.resize]
  split_ifs with hc hgrow hshrink
  · rfl
  · exfalso
    simp only [List.length_map] at hshrink
    omega
  · rfl
  · rfl
  · exfalso
    omega
  · rfl

lemma sb_le_applyOp (g : Grid) (op : GOp) (hok : okShrinkB g op = true)
    (hsb : g.scrollback.length ≤ g.max_scrollback) :
    (g.applyOp op).scrollback.length ≤ (g.applyOp op).max_scrollback := by
  cases op with
  | scrollUp =>
    show (g.scroll_up).scrollback.length ≤ (g.scroll_up).max_scrollback
    rw [Grid.scroll_up]
    cases hh : g.rows.head? with
    | none => exact hsb
    | some r =>
      dsimp only
      split_ifs with hcap
      · simp only [List.length_tail, List.length_append, List.length_cons,
          List.length_nil] at *
        omega
      · simp only [List.length_append, List.length_cons, List.length_nil] at *
        omega
  | scrollDown =>
    show (g.scroll_down).scrollback.length ≤ (g.scroll_down).max_scrollback
    rw [Grid.scroll_down]
    cases hl : g.scrollback.getLast? with
    | none => exact hsb
    | some r =>
      dsimp only
      rw [List.length_dropLast]
      omega
  | clear => exact hsb
  | clearToEnd r c => exact hsb
  | clearFromStart r c => exact hsb
  | write r c ch => exact hsb
  | resize r c =>
    have hok' : g.rows.length ≤ r := by
      simpa [okShrinkB] using hok
    show (g.resize r c).scrollback.length ≤ (g.resize r c).max_scrollback
    rw [resize_max, resize_scrollback_of_no_shrink g r c hok']
    exact hsb

lemma applyOps_cons (g : Grid) (op : GOp) (ops : List GOp) :
    g.applyOps (op :: ops) = (g.applyOp op).applyOps ops := rfl

/-- C3 (corrected): the scrollback bound `scrollback.length ≤ max_scrollback`
is preserved by every grid operation EXCEPT a resize that removes rows:
`scroll_up` enforces the cap, but the row-shrinking branch of `Grid::resize`
(reached from `Terminal::resize` with `new_rows < old_rows`) pushes rows into
the scrollback without enforcing it, so the bound can be exceeded (see the
counterexample). For every operation sequence containing no row-shrinking
resize, the bound holds afterwards. -/
theorem c3_scrollback_bounded (g : Grid) (ops : List GOp)
    (h0 : g.scrollback.length ≤ g.max_scrollback) (h : noShrinkB g ops = true) :
    (g.applyOps ops).scrollback.length ≤ (g.applyOps ops).max_scrollback := by
  induction ops generalizing g with
  | nil => exact h0
  | cons op ops ih =>
    rw [applyOps_cons]
    rw [noShrinkB, Bool.and_eq_true] at h
    exact ih _ (sb_le_applyOp g op h.1 h0) h.2

/-- Witness for C3: on a 2×2 grid with `max_scrollback = 1`, two scrolls, a
growing resize and a clear keep the bound. -/
theorem c3_scrollback_bounded_witness :
    ((Grid.new 2 2 1).scrollback.length ≤ (Grid.new 2 2 1).max_scrollback ∧
      noShrinkB (Grid.new 2 2 1) [.scrollUp, .scrollUp, .resize 3 3, .clear] = true) ∧
    ((Grid.new 2 2 1).applyOps [.scrollUp, .scrollUp, .resize 3 3, .clear]).scrollback.length ≤
      ((Grid.new 2 2 1).applyOps [.scrollUp, .scrollUp, .resize 3 3, .clear]).max_scrollback :=
  ⟨⟨by decide, by decide⟩,
    c3_scrollback_bounded (Grid.new 2 2 1) [.scrollUp, .scrollUp, .resize 3 3, .clear]
      (by decide) (by decide)⟩

/-- Counterexample to C3 as stated: shrinking a 2-row grid with
`max_scrollback = 0` to 1 row pushes a row into the scrollback without the
cap, leaving `scrollback.length = 1 > 0 = max_scrollback`. -/
theorem c3_counterexample :
    ((Grid.new 2 1 0).resize 1 1).scrollback.length = 1 ∧
    ¬(((Grid.new 2 1 0).resize 1 1).scrollback.length ≤
        ((Grid.new 2 1 0).resize 1 1).max_scrollback) := by decide

/-! Dirty-row lemmas for C8. -/

lemma mem_dirtyIdx (i : Nat) : ∀ (rs : List Row) (k : Nat),
    i ∈ dirtyIdx rs k ↔ ∃ j r, rs[j]? = some r ∧ r.dirty = true ∧ i = k + j := by
  intro rs
  induction rs with
  | nil => intro k; simp [dirtyIdx]
  | cons r rs ih =>
    intro k
    rw [dirtyIdx]
    split_ifs with hd
    · rw [List.mem_cons, ih (k + 1)]
      constructor
      · rintro (rfl | ⟨j, r', hj, hd', rfl⟩)
        · exact ⟨0, r, by simp, hd, by omega⟩
        · exact ⟨j + 1, r', by simpa using hj, hd', by omega⟩
      · rintro ⟨j, r', hj, hd', rfl⟩
        cases j with
        | zero => left; omega
        | succ j =>
          right
          exact ⟨j, r', by simpa using hj, hd', by omega⟩
    · rw [ih (k + 1)]
      constructor
      · rintro ⟨j, r', hj, hd', rfl⟩
        exact ⟨j + 1, r', by simpa using hj, hd', by omega⟩
      · rintro ⟨j, r', hj, hd', rfl⟩
        cases j with
        | zero =>
          exfalso
          simp only [List.getElem?_cons_zero, Option.some_inj] at hj
          subst hj
          exact hd hd'
        | succ j =>
          exact ⟨j, r', by simpa using hj, hd', by omega⟩

lemma mem_dirty_rows_iff (g : Grid) (i : Nat) : i ∈ g.dirty_rows ↔ dirtyAt g i := by
  rw [Grid.dirty_rows, mem_dirtyIdx]
  unfold dirtyAt
  constructor
  · rintro ⟨j, r, hj, hd, rfl⟩
    exact ⟨r, by simpa using hj, hd⟩
  · rintro ⟨r, hi, hd⟩
    exact ⟨i, r, hi, hd, by omega⟩

lemma dirtyAt_rows_mapIdx (g : Grid) (f : Nat → Row → Row)
    (hf : ∀ n r, r.dirty = true → (f n r).dirty = true) (i : Nat)
    (h : dirtyAt g i) : dirtyAt { g with rows := mapIdxFrom f 0 g.rows } i := by
  obtain ⟨r, hr, hd⟩ := h
  refine ⟨f i r, ?_, hf i r hd⟩
  show (mapIdxFrom f 0 g.rows)[i]? = some (f i r)
  rw [getElem?_mapIdxFrom, hr]
  simp

lemma dirtyAt_lt_length (g : Grid) (i : Nat) (h : dirtyAt g i) : i < g.rows.length := by
  obtain ⟨row, hrow, _⟩ := h
  by_contra hge
  rw [List.getElem?_eq_none (by omega)] at hrow
  exact Option.noConfusion hrow

lemma dirtyAt_row_stage (g2 : Grid) (r : Nat) (i : Nat) (hns : g2.rows.length ≤ r)
    (h2 : dirtyAt g2 i) :
    dirtyAt (if g2.rows.length < r then
        { g2 with rows := g2.rows ++ List.replicate (r - g2.rows.length) (Row.new g2.cols) }
      else if r < g2.rows.length then
        { g2 with scrollback := g2.scrollback ++ g2.rows.take (g2.rows.length - r),
                  rows := g2.rows.drop (g2.rows.length - r) }
      else g2) i := by
  have hlt : i < g2.rows.length := dirtyAt_lt_length g2 i h2
  obtain ⟨row, hrow, hd⟩ := h2
  split_ifs with hgrow hshrink
  · refine ⟨row, ?_, hd⟩
    show (g2.rows ++ List.replicate (r - g2.rows.length) (Row.new g2.cols))[i]? = some row
    rw [List.getElem?_append, if_pos hlt]
    exact hrow
  · omega
  · exact ⟨row, hrow, hd⟩

lemma dirtyAt_applyOp (g : Grid) (op : GOp) (i : Nat) (hok : okShiftB g op = true)
    (h : dirtyAt g i) : dirtyAt (g.applyOp op) i := by
  cases op with
  | scrollUp => simp [okShiftB] at hok
  | scrollDown => simp [okShiftB] at hok
  | clear =>
    obtain ⟨r, hr, hd⟩ := h
    refine ⟨r.clear, ?_, rfl⟩
    show (g.rows.map Row.clear)[i]? = some r.clear
    rw [List.getElem?_map, hr]
    rfl
  | clearToEnd r c =>
    apply dirtyAt_rows_mapIdx g _ _ i h
    intro n row hd
    dsimp only
    split_ifs <;> first | rfl | exact hd
  | clearFromStart r c =>
    apply dirtyAt_rows_mapIdx g _ _ i h
    intro n row hd
    dsimp only
    split_ifs <;> first | rfl | exact hd
  | write r c ch =>
    apply dirtyAt_rows_mapIdx g _ _ i h
    intro n row hd
    dsimp only
    split_ifs <;> first | rfl | exact hd
  | resize r c =>
    have hok' : g.rows.length ≤ r := by simpa [okShiftB] using hok
    show dirtyAt (g.resize r c) i
    rw [Grid.resize]
    refine dirtyAt_row_stage _ r i ?_ ?_
    · split_ifs with hc
      · show (g.rows.map (fun row => row.resize c)).length ≤ r
        rw [List.length_map]
        exact hok'
      · exact hok'
    · split_ifs with hc
      · obtain ⟨row, hrow, hd⟩ := h
        refine ⟨row.resize c, ?_, rfl⟩
        show (g.rows.map (fun row => row.resize c))[i]? = some (row.resize c)
        rw [List.getElem?_map, hrow]
        rfl
      · exact h

/-- C8 (corrected): between `mark_clean` calls no grid operation ever clears
a row's dirty flag, and for every sequence of operations that contains no
`scroll_up`, `scroll_down`, or row-removing resize, once an index appears in
`dirty_rows()` it stays there. The original claim — monotonicity under ALL
operations including `scroll_up` — is false: `scroll_up` removes row 0, so
every dirty index shifts down by one and the old index can leave
`dirty_rows()` (see the counterexample). -/
theorem c8_dirty_rows_monotone (g : Grid) (ops : List GOp) (i : Nat)
    (h : noShiftB g ops = true) (hd : i ∈ g.dirty_rows) :
    i ∈ (g.applyOps ops).dirty_rows := by
  rw [mem_dirty_rows_iff] at hd ⊢
  induction ops generalizing g with
  | nil => exact hd
  | cons op ops ih =>
    rw [applyOps_cons]
    rw [noShiftB, Bool.and_eq_true] at h
    exact ih _ h.2 (dirtyAt_applyOp g op i h.1 hd)

/-- Witness for C8: on `g_dirty_demo` (only row 1 dirty), a write, a growing
resize and a partial clear keep index 1 dirty. -/
theorem c8_dirty_rows_monotone_witness :
    (noShiftB g_dirty_demo [.write 0 0 'Y', .resize 4 3, .clearToEnd 0 0] = true ∧
      1 ∈ g_dirty_demo.dirty_rows) ∧
    1 ∈ (g_dirty_demo.applyOps [.write 0 0 'Y', .resize 4 3, .clearToEnd 0 0]).dirty_rows :=
  ⟨⟨by decide, by decide⟩,
    c8_dirty_rows_monotone g_dirty_demo [.write 0 0 'Y', .resize 4 3, .clearToEnd 0 0] 1
      (by decide) (by decide)⟩

/-- Counterexample to C8 as stated: on `g_dirty_demo` the dirty set is {1};
after `scroll_up` (one of the operations the claim quantifies over) it is
{0, 2} — index 1 has left `dirty_rows()` without any `mark_clean`. -/
theorem c8_counterexample :
    1 ∈ g_dirty_demo.dirty_rows ∧ ¬(1 ∈ (g_dirty_demo.scroll_up).dirty_rows) := by decide

/-! Saved-cursor lemmas for C9. -/

lemma applyAction_saved_of_cursorStyle (t : Terminal) (a : Action)
    (h : cursorStyleOpB a = true) :
    (applyAction t a).saved_cursor = t.saved_cursor := by
  cases a with
  | csiDisp ps c =>
    have hc : c = 'A' ∨ c = 'B' ∨ c = 'C' ∨ c = 'D' ∨ c = 'H' ∨ c = 'f' ∨ c = 'm' := by
      simpa [cursorStyleOpB, or_assoc] using h
    rcases hc with rfl | rfl | rfl | rfl | rfl | rfl | rfl <;>
      simp only [applyAction, csi_eq_A, csi_eq_B, csi_eq_C, csi_eq_D, csi_eq_H, csi_eq_f,
        csi_eq_m, handle_sgr_saved]
  | print c => simp [cursorStyleOpB] at h
  | execByte b => simp [cursorStyleOpB] at h
  | escDisp b => simp [cursorStyleOpB] at h
  | oscDisp => simp [cursorStyleOpB] at h

lemma foldl_saved_of_cursorStyle (acts : List Action)
    (h : ∀ a ∈ acts, cursorStyleOpB a = true) (t : Terminal) :
    (acts.foldl applyAction t).saved_cursor = t.saved_cursor := by
  induction acts generalizing t with
  | nil => rfl
  | cons a as ih =>
    rw [List.foldl_cons, ih (fun x hx => h x (List.mem_cons_of_mem a hx)),
      applyAction_saved_of_cursorStyle t a (h a (List.mem_cons_self a as))]

/-- C9 (confirmed): saving the cursor with CSI s, then applying any sequence
of cursor-movement and SGR dispatches (CSI A/B/C/D/H/f/m with arbitrary
parameters — none of which touches `saved_cursor`), then restoring with
CSI u, returns the cursor — position and style `(row, col, fg, bg, flags)` —
to exactly its state at the moment of the save. -/
theorem c9_save_restore_round_trip (t : Terminal) (ps qs : List Nat) (acts : List Action)
    (h : ∀ a ∈ acts, cursorStyleOpB a = true) :
    ((acts.foldl applyAction (t.csi_dispatch ps 's')).csi_dispatch qs 'u').cursor =
      t.cursor := by
  have hfold : (acts.foldl applyAction (t.csi_dispatch ps 's')).saved_cursor =
      some t.cursor := by
    rw [foldl_saved_of_cursorStyle acts h, csi_eq_s]
  rw [csi_eq_u, hfold]

/-- Witness for C9: on a fresh 5×5 terminal, save, move down, recolor, move
with CUP, restore: the cursor is back at (0,0) with the default style. -/
theorem c9_save_restore_round_trip_witness :
    (∀ a ∈ ([.csiDisp [2] 'B', .csiDisp [1, 31] 'm', .csiDisp [5, 5] 'H'] : List Action),
        cursorStyleOpB a = true) ∧
    ((([.csiDisp [2] 'B', .csiDisp [1, 31] 'm', .csiDisp [5, 5] 'H'] : List Action).foldl
        applyAction ((Terminal.new 5 5).csi_dispatch [0] 's')).csi_dispatch [0] 'u').cursor =
      (Terminal.new 5 5).cursor :=
  ⟨by decide,
    c9_save_restore_round_trip (Terminal.new 5 5) [0] [0]
      [.csiDisp [2] 'B', .csiDisp [1, 31] 'm', .csiDisp [5, 5] 'H'] (by decide)⟩

lemma set_parser_eta (x : Terminal) (p : PState) (hp : x.parser = p) :
    ({ x with parser := p } : Terminal) = x := by
  cases x
  cases hp
  rfl

/-- Every `process_bytes` call is the fold of the per-byte step over the
terminal paired with its parser state. -/
lemma process_bytes_foldl (t : Terminal) (bs : List Nat) :
    t.process_bytes bs =
      { (bs.foldl pbStep ({ t with parser := PState.ground }, t.parser)).1 with
        parser := (bs.foldl pbStep ({ t with parser := PState.ground }, t.parser)).2 } := rfl

lemma foldl_pbStep_pstate (bs : List Nat) : ∀ (t0 : Terminal) (p : PState),
    ((bs.foldl pbStep (t0, p)).1).parser = t0.parser := by
  induction bs with
  | nil => intro t0 p; rfl
  | cons x xs ih =>
    intro t0 p
    rw [List.foldl_cons]
    exact (ih _ _).trans (foldl_applyAction_pstate _ t0)

/-- C10 (confirmed): processing a byte stream in two pieces leaves the
terminal — grid, cursor, saved cursor AND parser state — in the same state
as processing the concatenation at once: the parser state is carried across
`process_bytes` calls, so escape sequences may be split at any byte
boundary. -/
theorem c10_process_bytes_append (t : Terminal) (a b : List Nat) :
    (t.process_bytes a).process_bytes b = t.process_bytes (a ++ b) := by
  have h1 : ((a.foldl pbStep ({ t with parser := PState.ground }, t.parser)).1).parser =
      PState.ground := foldl_pbStep_pstate a _ _
  have e1 : ({ (a.foldl pbStep ({ t with parser := PState.ground }, t.parser)).1 with
      parser := PState.ground } : Terminal) =
      (a.foldl pbStep ({ t with parser := PState.ground }, t.parser)).1 :=
    set_parser_eta _ _ h1
  calc (t.process_bytes a).process_bytes b
      = { (b.foldl pbStep
            ({ (a.foldl pbStep ({ t with parser := PState.ground }, t.parser)).1 with
               parser := PState.ground },
             (a.foldl pbStep ({ t with parser := PState.ground }, t.parser)).2)).1 with
          parser := (b.foldl pbStep
            ({ (a.foldl pbStep ({ t with parser := PState.ground }, t.parser)).1 with
               parser := PState.ground },
             (a.foldl pbStep ({ t with parser := PState.ground }, t.parser)).2)).2 } := rfl
    _ = { (b.foldl pbStep
            ((a.foldl pbStep ({ t with parser := PState.ground }, t.parser)).1,
             (a.foldl pbStep ({ t with parser := PState.ground }, t.parser)).2)).1 with
          parser := (b.foldl pbStep
            ((a.foldl pbStep ({ t with parser := PState.ground }, t.parser)).1,
             (a.foldl pbStep ({ t with parser := PState.ground }, t.parser)).2)).2 } := by
        rw [e1]
    _ = { ((a ++ b).foldl pbStep ({ t with parser := PState.ground }, t.parser)).1 with
          parser := ((a ++ b).foldl pbStep ({ t with parser := PState.ground }, t.parser)).2 } := by
        rw [List.foldl_append]
    _ = t.process_bytes (a ++ b) := rfl

end TermEmu
